import Mathlib

/-!
Verification of the straight-line depreciation engine.

The development shallowly embeds the engine: the `Asset` record and its
`validate`, `straight_line_depreciation` and `calculate_depreciation`
operations, and the filtering report generator
`generate_depreciation_report`.  Python floats are modelled as exact
rationals (`ℚ`); the mutation of `remaining_amount` and `last_depr_date`
inside the scheduling loop is modelled by explicit state passing (the
loop returns the emitted rows together with the updated asset).  File and
console I/O of the original (CSV writing, debug printing) is a boundary
concern and is not part of the embedding; the report generator returns
the list of rows it accumulates.
-/

/-- A calendar date, as Python `datetime.date`: compared lexicographically
by (year, month, day). -/
structure Date where
  year : Int
  month : Int
  day : Int
deriving DecidableEq, Repr

/-- Python date comparison `a < b`: lexicographic on (year, month, day). -/
def Date.ltb (a b : Date) : Bool :=
  if a.year ≠ b.year then decide (a.year < b.year)
  else if a.month ≠ b.month then decide (a.month < b.month)
  else decide (a.day < b.day)

/-- Python `round(x)` on an exact rational: round half to even
(banker's rounding).  The original operates on binary floats, whose
representation error this exact model does not reproduce; the claims
under verification do not depend on it. -/
def pyRound (x : ℚ) : ℤ :=
  if x - ⌊x⌋ < 1/2 then ⌊x⌋
  else if x - ⌊x⌋ > 1/2 then ⌊x⌋ + 1
  else if ⌊x⌋ % 2 = 0 then ⌊x⌋ else ⌊x⌋ + 1

/-- Python `round(x, 2)`: round to two decimal places. -/
def round2 (x : ℚ) : ℚ := (pyRound (100 * x) : ℚ) / 100

/-- The `Asset` class.  `purchase_date` is `Option Date` because the
source passes either a parsed `datetime.date` or `None`. -/
structure Asset where
  item_no : String
  item_type : String
  purchase_date : Option Date
  cost : ℚ
  carcass_value : ℚ
  life_years : ℤ
  last_depr_date : Option Date
  remaining_amount : ℚ
deriving DecidableEq, Repr

/-- `Asset.__init__`: `last_depr_date = last_depr_date or purchase_date`
(Python `or` falls back when the first operand is `None`), and
`remaining_amount = remaining_amount if remaining_amount is not None
else cost`. -/
def Asset.create (item_no item_type : String) (purchase_date : Option Date)
    (cost carcass_value : ℚ) (life_years : ℤ)
    (last_depr_date : Option Date) (remaining_amount : Option ℚ) : Asset :=
  { item_no := item_no
    item_type := item_type
    purchase_date := purchase_date
    cost := cost
    carcass_value := carcass_value
    life_years := life_years
    last_depr_date := match last_depr_date with
      | some d => some d
      | none => purchase_date
    remaining_amount := remaining_amount.getD cost }

/-- `Asset.validate`: rejects non-"FA" items, then missing purchase
dates; otherwise accepts.  Pure: it only reads the asset. -/
def Asset.validate (a : Asset) : Bool × Option String :=
  if a.item_type ≠ "FA" then
    (false, some ("Skipping item " ++ a.item_no ++ ": Not a Fixed Asset (FA)."))
  else if a.purchase_date = none then
    (false, some ("Error: Missing purchase date for item " ++ a.item_no ++ "."))
  else (true, none)

/-- `Asset.straight_line_depreciation`: `(cost - carcass_value) /
life_years`.  In `ℚ` division by zero yields `0`; in Python
`life_years = 0` raises `ZeroDivisionError` instead (see the theorem
about the unchecked degenerate life). -/
def Asset.straight_line_depreciation (a : Asset) : ℚ :=
  (a.cost - a.carcass_value) / (a.life_years : ℚ)

/-- `self.last_depr_date.year`.  Python raises `AttributeError` when
`last_depr_date` is `None`; for assets built by the constructor that
state implies `purchase_date = None`, which `validate` rejects before
this is evaluated, so the fallback `0` is unreachable in the program. -/
def Asset.startYear (a : Asset) : ℤ :=
  match a.last_depr_date with
  | some d => d.year
  | none => 0

/-- One output line of the report, with the nine columns of the source. -/
structure ReportRow where
  item_no : String
  purchase_date : Option Date
  cost : ℚ
  carcass_value : ℚ
  life_years : ℤ
  year : ℤ
  depreciation : ℚ
  remaining_amount : ℚ
  last_depr_date : Date
deriving DecidableEq, Repr

/-- The body of the `for year in range(...)` loop of
`calculate_depreciation`: consumes the list of candidate years, threads
the asset state (its `remaining_amount` and `last_depr_date` are
mutated), and accumulates the emitted rows.  The `break` on
`remaining_amount <= carcass_value` ends the whole loop. -/
def depreciationLoop (dpy : ℚ) : List ℤ → Asset → List ReportRow × Asset
  | [], a => ([], a)
  | year :: rest, a =>
    if a.remaining_amount ≤ a.carcass_value then ([], a)
    else
      let depreciation_value := min dpy (a.remaining_amount - a.carcass_value)
      let a' : Asset := { a with
        remaining_amount := a.remaining_amount - depreciation_value,
        last_depr_date := some ⟨year, 12, 31⟩ }
      let res := depreciationLoop dpy rest a'
      ({ item_no := a.item_no
         purchase_date := a.purchase_date
         cost := a.cost
         carcass_value := a.carcass_value
         life_years := a.life_years
         year := year
         depreciation := round2 depreciation_value
         remaining_amount := round2 a'.remaining_amount
         last_depr_date := ⟨year, 12, 31⟩ } :: res.1, res.2)

/-- The candidate years `range(start_year, start_year + life_years)`:
empty when `life_years ≤ 0`. -/
def Asset.scheduleYears (a : Asset) : List ℤ :=
  (List.range a.life_years.toNat).map (fun i : ℕ => a.startYear + (i : ℤ))

/-- `Asset.calculate_depreciation`: validate, compute the constant
annual amount, run the year loop.  Returns the Python result
(`None` for an invalid asset, the accumulated row list otherwise)
paired with the updated asset state. -/
def Asset.calculate_depreciation (a : Asset) : Option (List ReportRow) × Asset :=
  if (a.validate).1 then
    let res := depreciationLoop a.straight_line_depreciation a.scheduleYears a
    (some res.1, res.2)
  else (none, a)

/-- The emitted rows of `calculate_depreciation` (empty for an invalid
asset). -/
def Asset.reportRows (a : Asset) : List ReportRow :=
  ((a.calculate_depreciation).1).getD []

/-- The unrounded per-year depreciation amounts of the loop: the exact
values `min(depreciation_per_year, remaining_amount - carcass_value)`
subtracted from `remaining_amount`, before the presentational
`round(_, 2)` applied to the report row. -/
def depTraceLoop (dpy carcass : ℚ) : List ℤ → ℚ → List ℚ
  | [], _ => []
  | _ :: rest, rem =>
    if rem ≤ carcass then []
    else
      let d := min dpy (rem - carcass)
      d :: depTraceLoop dpy carcass rest (rem - d)

/-- The unrounded values of `remaining_amount` after each emitted row. -/
def remTraceLoop (dpy carcass : ℚ) : List ℤ → ℚ → List ℚ
  | [], _ => []
  | _ :: rest, rem =>
    if rem ≤ carcass then []
    else
      let d := min dpy (rem - carcass)
      (rem - d) :: remTraceLoop dpy carcass rest (rem - d)

/-- Successive exact subtraction of a list of amounts from a running
balance, recording each intermediate balance. -/
def subTrace (r : ℚ) : List ℚ → List ℚ
  | [] => []
  | d :: ds => (r - d) :: subTrace (r - d) ds

/-- The unrounded per-year depreciation amounts of
`calculate_depreciation` (empty for an invalid asset). -/
def Asset.depTrace (a : Asset) : List ℚ :=
  if (a.validate).1 then
    depTraceLoop a.straight_line_depreciation a.carcass_value a.scheduleYears
      a.remaining_amount
  else []

/-- The unrounded `remaining_amount` after each emitted row of
`calculate_depreciation` (empty for an invalid asset). -/
def Asset.remTrace (a : Asset) : List ℚ :=
  if (a.validate).1 then
    remTraceLoop a.straight_line_depreciation a.carcass_value a.scheduleYears
      a.remaining_amount
  else []

/-- Python `str.strip()`: drop leading and trailing whitespace.
Modelled on the character list of the string (Python additionally
strips `\v`/`\f`, which `Char.isWhitespace` omits; no input of interest
contains them). -/
def pyStrip (s : String) : String :=
  ⟨((s.data.dropWhile Char.isWhitespace).reverse.dropWhile Char.isWhitespace).reverse⟩

/-- Python `str.lower()`, for the ASCII identifiers the program
handles: lowercase every character. -/
def pyLower (s : String) : String :=
  ⟨s.data.map Char.toLower⟩

/-- The item-number filter of `generate_depreciation_report`:
`if item_no and item_no.strip():` guards the filter (inactive for
`None`, the empty string, or an all-whitespace string), and a kept
asset must satisfy
`asset.item_no.strip().lower() == item_no.strip().lower()`. -/
def itemFilterSkips (item_no : Option String) (a : Asset) : Bool :=
  match item_no with
  | none => false
  | some f =>
    if f = "" then false
    else if pyStrip f = "" then false
    else decide (pyLower (pyStrip a.item_no) ≠ pyLower (pyStrip f))

/-- The purchase-date filter of `generate_depreciation_report`: skip
when `start_date and asset.purchase_date < start_date`, or
`end_date and asset.purchase_date > end_date`.  Python raises
`TypeError` comparing `None` with a date; in the application every
scheduled asset carries a parsed `purchase_date`, so the `none`
branches (no skip) are unreachable there. -/
def dateFilterSkips (purchase_date_range : Option (Option Date × Option Date))
    (a : Asset) : Bool :=
  match purchase_date_range with
  | none => false
  | some (start_date, end_date) =>
    match a.purchase_date with
    | none => false
    | some p =>
      (match start_date with
       | some s => Date.ltb p s
       | none => false) ||
      (match end_date with
       | some e => Date.ltb e p
       | none => false)

/-- `generate_depreciation_report`: for each asset in order, apply the
item-number filter, then the date filter, then run the scheduler and
append its rows (`if data:` — `None` and `[]` both contribute
nothing). -/
def generate_depreciation_report (assets : List Asset) (item_no : Option String)
    (purchase_date_range : Option (Option Date × Option Date)) : List ReportRow :=
  match assets with
  | [] => []
  | asset :: rest =>
    if itemFilterSkips item_no asset then
      generate_depreciation_report rest item_no purchase_date_range
    else if dateFilterSkips purchase_date_range asset then
      generate_depreciation_report rest item_no purchase_date_range
    else
      (asset.calculate_depreciation).1.getD [] ++
        generate_depreciation_report rest item_no purchase_date_range

/-! ### Concrete assets used to instantiate the theorems -/

/-- The spec's concrete scenario: `cost=10000, carcass_value=1000,
life_years=5`, purchased 2020-01-01. -/
def assetSpec : Asset :=
  Asset.create "A001" "FA" (some ⟨2020, 1, 1⟩) 10000 1000 5 none none

/-- A non-fixed-asset item (`item_type = "EQ"`). -/
def assetEQ : Asset :=
  Asset.create "A002" "EQ" (some ⟨2021, 5, 1⟩) 5000 500 3 none none

/-- A one-year fixed asset used for the filter instantiation. -/
def assetA004 : Asset :=
  Asset.create "A004" "FA" (some ⟨2020, 1, 1⟩) 10 0 1 none none

/-- The single report row `assetA004` produces. -/
def rowA004 : ReportRow :=
  { item_no := "A004", purchase_date := some ⟨2020, 1, 1⟩, cost := 10,
    carcass_value := 0, life_years := 1, year := 2020, depreciation := 10,
    remaining_amount := 0, last_depr_date := ⟨2020, 12, 31⟩ }

/-- An otherwise-valid fixed asset with a negative declared life. -/
def assetNegLife : Asset :=
  Asset.create "A005" "FA" (some ⟨2020, 1, 1⟩) 10 0 (-1) none none

/-- An otherwise-valid fixed asset with `life_years = 0`. -/
def assetZeroLife : Asset :=
  Asset.create "A006" "FA" (some ⟨2020, 1, 1⟩) 10 0 0 none none

/-- A fixed asset whose cost already equals its carcass value. -/
def assetFlat : Asset :=
  Asset.create "A007" "FA" (some ⟨2020, 1, 1⟩) 5 5 2 none none

/-- A fixed asset whose `remaining_amount` already sits at the carcass
value, as after a completed schedule. -/
def assetDone : Asset :=
  Asset.create "A008" "FA" (some ⟨2019, 6, 1⟩) 100 10 3 none (some 10)

/-! ### Rounding lemmas -/

theorem le_pyRound (x : ℚ) : ⌊x⌋ ≤ pyRound x := by
  unfold pyRound
  split_ifs <;> omega

theorem pyRound_le (x : ℚ) : pyRound x ≤ ⌊x⌋ + 1 := by
  unfold pyRound
  split_ifs <;> omega

theorem pyRound_mono {x y : ℚ} (h : x ≤ y) : pyRound x ≤ pyRound y := by
  rcases lt_or_eq_of_le (Int.floor_le_floor h) with hf | hf
  · calc pyRound x ≤ ⌊x⌋ + 1 := pyRound_le x
      _ ≤ ⌊y⌋ := by omega
      _ ≤ pyRound y := le_pyRound y
  · unfold pyRound
    rw [← hf]
    split_ifs <;> first | omega | linarith

theorem round2_mono {x y : ℚ} (h : x ≤ y) : round2 x ≤ round2 y := by
  unfold round2
  have h1 : pyRound (100 * x) ≤ pyRound (100 * y) :=
    pyRound_mono (by linarith)
  have h2 : ((pyRound (100 * x) : ℤ) : ℚ) ≤ ((pyRound (100 * y) : ℤ) : ℚ) := by
    exact_mod_cast h1
  linarith

/-! ### Loop correspondence lemmas: the emitted rows carry the rounded
images of the unrounded traces, and the state update is exact. -/

theorem depreciationLoop_map_dep (dpy : ℚ) (ys : List ℤ) :
    ∀ a : Asset,
      ((depreciationLoop dpy ys a).1).map (fun r => r.depreciation) =
        (depTraceLoop dpy a.carcass_value ys a.remaining_amount).map round2 := by
  induction ys with
  | nil => intro a; rfl
  | cons y ys ih =>
    intro a
    by_cases h : a.remaining_amount ≤ a.carcass_value
    · simp [depreciationLoop, depTraceLoop, h]
    · simp only [depreciationLoop, depTraceLoop, if_neg h, List.map_cons]
      exact congrArg₂ List.cons rfl (ih _)

theorem depreciationLoop_map_rem (dpy : ℚ) (ys : List ℤ) :
    ∀ a : Asset,
      ((depreciationLoop dpy ys a).1).map (fun r => r.remaining_amount) =
        (remTraceLoop dpy a.carcass_value ys a.remaining_amount).map round2 := by
  induction ys with
  | nil => intro a; rfl
  | cons y ys ih =>
    intro a
    by_cases h : a.remaining_amount ≤ a.carcass_value
    · simp [depreciationLoop, remTraceLoop, h]
    · simp only [depreciationLoop, remTraceLoop, if_neg h, List.map_cons]
      exact congrArg₂ List.cons rfl (ih _)

theorem depreciationLoop_final_rem (dpy : ℚ) (ys : List ℤ) :
    ∀ a : Asset,
      ((depreciationLoop dpy ys a).2).remaining_amount =
        a.remaining_amount -
          (depTraceLoop dpy a.carcass_value ys a.remaining_amount).sum := by
  induction ys with
  | nil => intro a; simp [depreciationLoop, depTraceLoop]
  | cons y ys ih =>
    intro a
    by_cases h : a.remaining_amount ≤ a.carcass_value
    · simp [depreciationLoop, depTraceLoop, h]
    · simp only [depreciationLoop, depTraceLoop, if_neg h, List.sum_cons]
      have := ih { a with
        remaining_amount :=
          a.remaining_amount - min dpy (a.remaining_amount - a.carcass_value),
        last_depr_date := some ⟨y, 12, 31⟩ }
      simp only at this
      rw [this]
      ring

theorem remTraceLoop_eq_subTrace (dpy c : ℚ) (ys : List ℤ) :
    ∀ rem : ℚ,
      remTraceLoop dpy c ys rem = subTrace rem (depTraceLoop dpy c ys rem) := by
  induction ys with
  | nil => intro rem; rfl
  | cons y ys ih =>
    intro rem
    by_cases h : rem ≤ c
    · simp [remTraceLoop, depTraceLoop, subTrace, h]
    · simp only [remTraceLoop, depTraceLoop, if_neg h, subTrace]
      exact congrArg₂ List.cons rfl (ih _)

theorem depTraceLoop_length_le (dpy c : ℚ) (ys : List ℤ) :
    ∀ rem : ℚ, (depTraceLoop dpy c ys rem).length ≤ ys.length := by
  induction ys with
  | nil => intro rem; simp [depTraceLoop]
  | cons y ys ih =>
    intro rem
    by_cases h : rem ≤ c
    · simp [depTraceLoop, h]
    · simp only [depTraceLoop, if_neg h, List.length_cons]
      exact Nat.succ_le_succ (ih _)

theorem depreciationLoop_length (dpy : ℚ) (ys : List ℤ) (a : Asset) :
    ((depreciationLoop dpy ys a).1).length =
      (depTraceLoop dpy a.carcass_value ys a.remaining_amount).length := by
  have := congrArg List.length (depreciationLoop_map_dep dpy ys a)
  simpa using this

theorem depreciationLoop_item_no (dpy : ℚ) (ys : List ℤ) :
    ∀ (a : Asset) (r : ReportRow),
      r ∈ (depreciationLoop dpy ys a).1 → r.item_no = a.item_no := by
  induction ys with
  | nil => intro a r hr; simp [depreciationLoop] at hr
  | cons y ys ih =>
    intro a r hr
    by_cases h : a.remaining_amount ≤ a.carcass_value
    · simp [depreciationLoop, h] at hr
    · simp only [depreciationLoop, if_neg h, List.mem_cons] at hr
      rcases hr with hr | hr
      · rw [hr]
      · have h2 := ih _ r hr
        exact h2

theorem depreciationLoop_of_le (dpy : ℚ) (ys : List ℤ) (a : Asset)
    (h : a.remaining_amount ≤ a.carcass_value) :
    depreciationLoop dpy ys a = ([], a) := by
  cases ys with
  | nil => rfl
  | cons y ys => simp [depreciationLoop, h]

theorem depTraceLoop_of_le (dpy c : ℚ) (ys : List ℤ) (rem : ℚ)
    (h : rem ≤ c) : depTraceLoop dpy c ys rem = [] := by
  cases ys with
  | nil => rfl
  | cons y ys => simp [depTraceLoop, h]

theorem depTraceLoop_ne_nil (dpy c : ℚ) (ys : List ℤ) (rem : ℚ)
    (h : depTraceLoop dpy c ys rem ≠ []) : c < rem := by
  cases ys with
  | nil => simp [depTraceLoop] at h
  | cons y ys =>
    by_cases hle : rem ≤ c
    · simp [depTraceLoop, hle] at h
    · exact lt_of_not_le hle

theorem remTraceLoop_floor (dpy c : ℚ) (ys : List ℤ) :
    ∀ rem : ℚ, c ≤ rem →
      ∀ x ∈ remTraceLoop dpy c ys rem, c ≤ x := by
  induction ys with
  | nil => intro rem _ x hx; simp [remTraceLoop] at hx
  | cons y ys ih =>
    intro rem hrem x hx
    by_cases h : rem ≤ c
    · simp [remTraceLoop, h] at hx
    · simp only [remTraceLoop, if_neg h, List.mem_cons] at hx
      have hstep : c ≤ rem - min dpy (rem - c) := by
        have : min dpy (rem - c) ≤ rem - c := min_le_right _ _
        linarith
      rcases hx with hx | hx
      · rw [hx]; exact hstep
      · exact ih _ hstep x hx

theorem remTraceLoop_chain (dpy c : ℚ) (hd : 0 ≤ dpy) (ys : List ℤ) :
    ∀ rem : ℚ,
      List.Chain' (fun x y => y ≤ x) (rem :: remTraceLoop dpy c ys rem) := by
  induction ys with
  | nil => intro rem; simp [remTraceLoop]
  | cons y ys ih =>
    intro rem
    by_cases h : rem ≤ c
    · simp [remTraceLoop, h]
    · simp only [remTraceLoop, if_neg h]
      refine List.Chain'.cons ?_ (ih _)
      have h0 : 0 ≤ min dpy (rem - c) := le_min hd (by linarith [lt_of_not_le h])
      linarith

theorem depTraceLoop_replicate (dpy c : ℚ) (hd : 0 < dpy) :
    ∀ (ys : List ℤ) (n : ℕ), ys.length = n →
      depTraceLoop dpy c ys (c + n * dpy) = List.replicate n dpy := by
  intro ys
  induction ys with
  | nil =>
    intro n hn
    simp at hn
    subst hn
    rfl
  | cons y ys ih =>
    intro n hn
    simp at hn
    subst hn
    have hpos : (0 : ℚ) < ((ys.length : ℚ) + 1) * dpy := by
      have : (0 : ℚ) ≤ (ys.length : ℚ) := by positivity
      nlinarith
    have hgt : ¬ (c + ((ys.length : ℕ) + 1 : ℕ) * dpy ≤ c) := by
      push_cast
      nlinarith
    simp only [depTraceLoop, if_neg hgt]
    have hmin : min dpy (c + ((ys.length : ℕ) + 1 : ℕ) * dpy - c) = dpy := by
      have : (dpy : ℚ) ≤ ((ys.length : ℚ) + 1) * dpy := by nlinarith [Nat.cast_nonneg (α := ℚ) ys.length]
      push_cast
      rw [min_eq_left]
      linarith
    rw [hmin]
    have harg : c + ((ys.length : ℕ) + 1 : ℕ) * dpy - dpy = c + (ys.length : ℚ) * dpy := by
      push_cast
      ring
    rw [harg, ih ys.length rfl]
    rfl

/-! ### Schedule-level helper lemmas -/

theorem reportRows_eq_loop (a : Asset) (hv : (a.validate).1 = true) :
    a.reportRows =
      (depreciationLoop a.straight_line_depreciation a.scheduleYears a).1 := by
  simp [Asset.reportRows, Asset.calculate_depreciation, hv]

theorem depTrace_eq_loop (a : Asset) (hv : (a.validate).1 = true) :
    a.depTrace =
      depTraceLoop a.straight_line_depreciation a.carcass_value a.scheduleYears
        a.remaining_amount := by
  simp [Asset.depTrace, hv]

theorem remTrace_eq_loop (a : Asset) (hv : (a.validate).1 = true) :
    a.remTrace =
      remTraceLoop a.straight_line_depreciation a.carcass_value a.scheduleYears
        a.remaining_amount := by
  simp [Asset.remTrace, hv]

theorem scheduleYears_length (a : Asset) :
    (a.scheduleYears).length = a.life_years.toNat := by
  unfold Asset.scheduleYears
  rw [List.length_map, List.length_range]

theorem depTrace_eq_nil (a : Asset) (hv : (a.validate).1 = true)
    (hge : a.remaining_amount ≤ a.carcass_value) : a.depTrace = [] := by
  rw [depTrace_eq_loop a hv]
  exact depTraceLoop_of_le _ _ _ _ hge

/-- With exact arithmetic, a full-cost asset with positive life and a
strict carcass gap depreciates by the constant annual amount in every
scheduled year. -/
theorem depTrace_eq_replicate (a : Asset) (hv : (a.validate).1 = true)
    (hl : 1 ≤ a.life_years) (hr : a.remaining_amount = a.cost)
    (hlt : a.carcass_value < a.cost) :
    a.depTrace =
      List.replicate a.life_years.toNat a.straight_line_depreciation := by
  have hl0 : (0 : ℤ) < a.life_years := by omega
  have hlq : (0 : ℚ) < (a.life_years : ℚ) := by exact_mod_cast hl0
  have hdpy : 0 < a.straight_line_depreciation := by
    unfold Asset.straight_line_depreciation
    exact div_pos (by linarith) hlq
  have hz : ((a.life_years.toNat : ℤ)) = a.life_years :=
    Int.toNat_of_nonneg (by omega)
  have hcast : ((a.life_years.toNat : ℚ)) = (a.life_years : ℚ) := by
    exact_mod_cast hz
  have hrem : a.remaining_amount =
      a.carcass_value +
        (a.life_years.toNat : ℚ) * a.straight_line_depreciation := by
    rw [hr, hcast]
    unfold Asset.straight_line_depreciation
    field_simp
  rw [depTrace_eq_loop a hv, hrem]
  exact depTraceLoop_replicate a.straight_line_depreciation a.carcass_value hdpy
    a.scheduleYears a.life_years.toNat (scheduleYears_length a)

theorem reportRows_length_eq_depTrace (a : Asset) (hv : (a.validate).1 = true) :
    (a.reportRows).length = a.depTrace.length := by
  rw [reportRows_eq_loop a hv, depTrace_eq_loop a hv]
  exact depreciationLoop_length _ _ _

/-! ### Claim theorems -/

/-- C1 counterexample: the claim fails as stated.  An asset with
`item_type = "FA"`, a purchase date, `cost = 10`, `carcass_value = 0`
and `life_years = -1` is accepted by `validate` (which checks neither
life nor amounts), starts with `remaining_amount = cost`, yet
`range(start_year, start_year + life_years)` is empty, so no year is
ever depreciated and the sum of per-year amounts is `0 ≠ cost -
carcass_value`. -/
theorem full_schedule_sum_cex :
    (assetNegLife.validate).1 = true ∧
    assetNegLife.carcass_value ≤ assetNegLife.cost ∧
    assetNegLife.remaining_amount = assetNegLife.cost ∧
    assetNegLife.depTrace = [] ∧
    assetNegLife.depTrace.sum ≠ assetNegLife.cost - assetNegLife.carcass_value := by
  have hys : assetNegLife.scheduleYears = [] := by decide
  have hv : (assetNegLife.validate).1 = true := by decide
  have htr : assetNegLife.depTrace = [] := by
    rw [depTrace_eq_loop assetNegLife hv, hys]
    simp [depTraceLoop]
  refine ⟨hv, by decide, by decide, htr, ?_⟩
  rw [htr]
  norm_num [assetNegLife, Asset.create]

/-- C1 (amended with `1 ≤ life_years`, which the counterexample
forces): for every asset accepted by validation with a positive
declared life, `carcass_value ≤ cost` and `remaining_amount = cost`,
the unrounded per-year depreciation amounts — each
`min((cost - carcass_value) / life_years, remaining_amount -
carcass_value)` — sum to exactly `cost - carcass_value`, the asset's
final remaining amount equals `carcass_value`, and the emitted rows
report exactly the rounded images of those amounts. -/
theorem full_schedule_sum (a : Asset)
    (hv : (a.validate).1 = true) (hl : 1 ≤ a.life_years)
    (hc : a.carcass_value ≤ a.cost) (hr : a.remaining_amount = a.cost) :
    a.depTrace.sum = a.cost - a.carcass_value ∧
    ((a.calculate_depreciation).2).remaining_amount = a.carcass_value ∧
    (a.reportRows).map (fun r => r.depreciation) = a.depTrace.map round2 := by
  have hmap : (a.reportRows).map (fun r => r.depreciation) =
      a.depTrace.map round2 := by
    rw [reportRows_eq_loop a hv, depTrace_eq_loop a hv]
    exact depreciationLoop_map_dep _ _ _
  have hfin : ((a.calculate_depreciation).2).remaining_amount =
      a.remaining_amount - a.depTrace.sum := by
    rw [depTrace_eq_loop a hv]
    simp [Asset.calculate_depreciation, hv, depreciationLoop_final_rem]
  have hsum : a.depTrace.sum = a.cost - a.carcass_value := by
    rcases lt_or_eq_of_le hc with hlt | heq
    · rw [depTrace_eq_replicate a hv hl hr hlt, List.sum_replicate, nsmul_eq_mul]
      have hz : ((a.life_years.toNat : ℤ)) = a.life_years :=
        Int.toNat_of_nonneg (by omega)
      have hcast : ((a.life_years.toNat : ℚ)) = (a.life_years : ℚ) := by
        exact_mod_cast hz
      have hl0 : (0 : ℤ) < a.life_years := by omega
      have hlq : (0 : ℚ) < (a.life_years : ℚ) := by exact_mod_cast hl0
      rw [hcast]
      unfold Asset.straight_line_depreciation
      field_simp
    · rw [depTrace_eq_nil a hv (by rw [hr, ← heq])]
      simp [← heq]
  exact ⟨hsum, by rw [hfin, hsum, hr]; ring, hmap⟩

theorem full_schedule_sum_witness :
    assetSpec.depTrace.sum = assetSpec.cost - assetSpec.carcass_value ∧
    ((assetSpec.calculate_depreciation).2).remaining_amount =
      assetSpec.carcass_value ∧
    (assetSpec.reportRows).map (fun r => r.depreciation) =
      assetSpec.depTrace.map round2 :=
  full_schedule_sum assetSpec (by decide) (by decide) (by decide) (by decide)

/-- C2: for an asset with `carcass_value ≤ cost` whose
`remaining_amount` starts at or above `carcass_value`, the
remaining amount is non-increasing across the emitted rows — both for
the rounded values the rows carry and for the exact values of the
asset's `remaining_amount` they are the rounded images of — and the
exact remaining amount never falls below `carcass_value` at any row. -/
theorem remaining_amount_antitone (a : Asset)
    (hc : a.carcass_value ≤ a.cost) (h2 : a.carcass_value ≤ a.remaining_amount) :
    List.Chain' (fun x y => y ≤ x)
      ((a.reportRows).map (fun r => r.remaining_amount)) ∧
    (a.reportRows).map (fun r => r.remaining_amount) = a.remTrace.map round2 ∧
    List.Chain' (fun x y => y ≤ x) a.remTrace ∧
    ∀ x ∈ a.remTrace, a.carcass_value ≤ x := by
  by_cases hv : (a.validate).1 = true
  case neg =>
    have hv' : (a.validate).1 = false := by simpa using hv
    simp [Asset.reportRows, Asset.calculate_depreciation, Asset.remTrace, hv']
  case pos =>
    have hmap : (a.reportRows).map (fun r => r.remaining_amount) =
        a.remTrace.map round2 := by
      rw [reportRows_eq_loop a hv, remTrace_eq_loop a hv]
      exact depreciationLoop_map_rem _ _ _
    rcases Nat.eq_zero_or_pos a.life_years.toNat with h0 | hpos
    · have hys : a.scheduleYears = [] := by
        simp [Asset.scheduleYears, h0]
      have htr : a.remTrace = [] := by
        rw [remTrace_eq_loop a hv, hys]
        simp [remTraceLoop]
      refine ⟨?_, hmap, ?_, ?_⟩ <;> simp [hmap, htr]
    · have hl0 : (0 : ℤ) < a.life_years := by omega
      have hlq : (0 : ℚ) < (a.life_years : ℚ) := by exact_mod_cast hl0
      have hdpy : 0 ≤ a.straight_line_depreciation := by
        unfold Asset.straight_line_depreciation
        exact div_nonneg (by linarith) (le_of_lt hlq)
      have hchain : List.Chain' (fun x y => y ≤ x) a.remTrace := by
        rw [remTrace_eq_loop a hv]
        exact (remTraceLoop_chain a.straight_line_depreciation a.carcass_value
          hdpy a.scheduleYears a.remaining_amount).tail
      have hfloor : ∀ x ∈ a.remTrace, a.carcass_value ≤ x := by
        rw [remTrace_eq_loop a hv]
        exact remTraceLoop_floor _ _ _ _ h2
      refine ⟨?_, hmap, hchain, hfloor⟩
      rw [hmap, List.chain'_map]
      exact hchain.imp (fun x y hxy => round2_mono hxy)

theorem remaining_amount_antitone_witness :
    List.Chain' (fun x y => y ≤ x)
      ((assetSpec.reportRows).map (fun r => r.remaining_amount)) ∧
    (assetSpec.reportRows).map (fun r => r.remaining_amount) =
      assetSpec.remTrace.map round2 ∧
    List.Chain' (fun x y => y ≤ x) assetSpec.remTrace ∧
    ∀ x ∈ assetSpec.remTrace, assetSpec.carcass_value ≤ x :=
  remaining_amount_antitone assetSpec (by decide) (by decide)

/-- C7 counterexample: the claim's biconditional fails as stated.  For
a validated asset with `cost = carcass_value = 5`, `life_years = 2` and
`remaining_amount = cost`, the annual amount `0` evenly divides
`cost - carcass_value = 0`, yet the loop breaks immediately and emits
`0 ≠ 2 = life_years` rows. -/
theorem rows_count_divisibility_cex :
    (assetFlat.validate).1 = true ∧
    assetFlat.remaining_amount = assetFlat.cost ∧
    assetFlat.carcass_value ≤ assetFlat.cost ∧
    (∃ k : ℕ, assetFlat.cost - assetFlat.carcass_value =
      (k : ℚ) * assetFlat.straight_line_depreciation) ∧
    (assetFlat.reportRows).length ≠ assetFlat.life_years.toNat := by
  refine ⟨by decide, by decide, by decide,
    ⟨0, by norm_num [assetFlat, Asset.create]⟩, ?_⟩
  have hv : (assetFlat.validate).1 = true := by decide
  have hrows : assetFlat.reportRows = [] := by
    rw [reportRows_eq_loop assetFlat hv,
      depreciationLoop_of_le _ _ _ (by decide)]
  rw [hrows]
  decide

/-- C7 (amended with `1 ≤ life_years` and `remaining_amount = cost`,
and the even-division condition replaced by the strict gap
`carcass_value < cost` it reduces to in exact arithmetic, as the
counterexample forces): a validated full-cost asset emits at most
`life_years` rows, and emits exactly `life_years` rows iff
`carcass_value < cost` — in which case the annual amount is nonzero
and divides `cost - carcass_value` exactly `life_years` times; when
`cost = carcass_value` the divisibility holds trivially but zero rows
are emitted. -/
theorem rows_count_le_life (a : Asset)
    (hv : (a.validate).1 = true) (hl : 1 ≤ a.life_years)
    (hr : a.remaining_amount = a.cost) (hc : a.carcass_value ≤ a.cost) :
    (((a.reportRows).length : ℤ)) ≤ a.life_years ∧
    ((((a.reportRows).length : ℤ)) = a.life_years ↔ a.carcass_value < a.cost) := by
  have hn : ((a.life_years.toNat : ℤ)) = a.life_years :=
    Int.toNat_of_nonneg (by omega)
  have hlen : (a.reportRows).length = a.depTrace.length :=
    reportRows_length_eq_depTrace a hv
  have hle : a.depTrace.length ≤ a.life_years.toNat := by
    rw [depTrace_eq_loop a hv]
    calc (depTraceLoop a.straight_line_depreciation a.carcass_value
          a.scheduleYears a.remaining_amount).length
        ≤ (a.scheduleYears).length := depTraceLoop_length_le _ _ _ _
      _ = a.life_years.toNat := scheduleYears_length a
  constructor
  · rw [hlen]
    omega
  · constructor
    · intro heq
      by_contra hnc
      have hcc : a.cost = a.carcass_value := le_antisymm (not_lt.1 hnc) hc
      have htr : a.depTrace = [] := depTrace_eq_nil a hv (by rw [hr, hcc])
      rw [hlen, htr] at heq
      simp at heq
      omega
    · intro hlt
      rw [hlen, depTrace_eq_replicate a hv hl hr hlt, List.length_replicate]
      exact hn

theorem rows_count_le_life_witness :
    (((assetSpec.reportRows).length : ℤ)) ≤ assetSpec.life_years ∧
    ((((assetSpec.reportRows).length : ℤ)) = assetSpec.life_years ↔
      assetSpec.carcass_value < assetSpec.cost) :=
  rows_count_le_life assetSpec (by decide) (by decide) (by decide) (by decide)

/-- C3: the spec requires validation to reject `life_years = 0` before
scheduling so that the division `(cost - carcass_value) / life_years`
stays unreachable; the code's `validate` checks only `item_type` and
`purchase_date`, so an otherwise-valid asset with `life_years = 0`
passes validation and `calculate_depreciation` proceeds to evaluate the
division (in Python, a `ZeroDivisionError`). -/
theorem validate_accepts_zero_life :
    assetZeroLife.life_years = 0 ∧
    assetZeroLife.item_type = "FA" ∧
    assetZeroLife.purchase_date ≠ none ∧
    assetZeroLife.validate = (true, none) := by
  refine ⟨by decide, by decide, by decide, by decide⟩

/-- C4: an asset whose `item_type` is not `"FA"`, or whose
`purchase_date` is absent, makes `calculate_depreciation` return `None`
and hence contributes no report rows, whatever its other fields. -/
theorem invalid_asset_no_rows (a : Asset)
    (h : a.item_type ≠ "FA" ∨ a.purchase_date = none) :
    (a.calculate_depreciation).1 = none ∧ a.reportRows = [] := by
  have hv : (a.validate).1 = false := by
    by_cases hi : a.item_type = "FA"
    · rcases h with h | h
      · exact absurd hi h
      · simp [Asset.validate, hi, h]
    · simp [Asset.validate, hi]
  constructor
  · simp [Asset.calculate_depreciation, hv]
  · simp [Asset.reportRows, Asset.calculate_depreciation, hv]

theorem invalid_asset_no_rows_witness :
    (assetEQ.calculate_depreciation).1 = none ∧ assetEQ.reportRows = [] :=
  invalid_asset_no_rows assetEQ (Or.inl (by decide))

/-- C8: `validate` returns `(False, reason)` naming a skipped non-fixed
asset when `item_type ≠ "FA"`, `(False, reason)` naming the missing
purchase date when the item is `"FA"` without a date, and
`(True, None)` otherwise; it is a pure function of the asset and
mutates nothing. -/
theorem validate_cases (a : Asset) :
    (a.item_type ≠ "FA" →
      a.validate =
        (false, some ("Skipping item " ++ a.item_no ++ ": Not a Fixed Asset (FA)."))) ∧
    (a.item_type = "FA" → a.purchase_date = none →
      a.validate =
        (false, some ("Error: Missing purchase date for item " ++ a.item_no ++ "."))) ∧
    (a.item_type = "FA" → a.purchase_date ≠ none →
      a.validate = (true, none)) := by
  refine ⟨fun h => by simp [Asset.validate, h],
    fun h1 h2 => by simp [Asset.validate, h1, h2],
    fun h1 h2 => by simp [Asset.validate, h1, h2]⟩

theorem validate_cases_witness :
    assetEQ.validate =
      (false, some ("Skipping item " ++ assetEQ.item_no ++ ": Not a Fixed Asset (FA).")) :=
  (validate_cases assetEQ).1 (by decide)

/-- C9: each iteration subtracts the unrounded amount
`min(depreciation_per_year, remaining_amount - carcass_value)` from
`remaining_amount`; `round(_, 2)` touches only the depreciation and
remaining-amount fields of the emitted rows (they are the rounded
images of the unrounded traces) and never feeds back into the asset's
state, whose final value is the initial amount minus the sum of
unrounded amounts. -/
theorem rounding_presentational_only (a : Asset) :
    (a.reportRows).map (fun r => r.depreciation) = a.depTrace.map round2 ∧
    (a.reportRows).map (fun r => r.remaining_amount) = a.remTrace.map round2 ∧
    a.remTrace = subTrace a.remaining_amount a.depTrace ∧
    ((a.calculate_depreciation).2).remaining_amount =
      a.remaining_amount - a.depTrace.sum := by
  by_cases hv : (a.validate).1 = true
  · refine ⟨?_, ?_, ?_, ?_⟩
    · simp [Asset.reportRows, Asset.calculate_depreciation, Asset.depTrace, hv,
        depreciationLoop_map_dep]
    · simp [Asset.reportRows, Asset.calculate_depreciation, Asset.remTrace, hv,
        depreciationLoop_map_rem]
    · simp [Asset.remTrace, Asset.depTrace, hv, remTraceLoop_eq_subTrace]
    · simp [Asset.calculate_depreciation, Asset.depTrace, hv,
        depreciationLoop_final_rem]
  · have hv' : (a.validate).1 = false := by
      simpa using hv
    simp [Asset.reportRows, Asset.calculate_depreciation, Asset.depTrace,
      Asset.remTrace, hv', subTrace]

/-- C10: a valid asset whose `remaining_amount` is already at or below
`carcass_value` when `calculate_depreciation` is called produces the
empty row list `some []` (distinct from the `none` an invalid asset
gets) and is left entirely unchanged, `remaining_amount` and
`last_depr_date` included. -/
theorem completed_asset_no_rows (a : Asset)
    (hv : (a.validate).1 = true) (h : a.remaining_amount ≤ a.carcass_value) :
    a.calculate_depreciation = (some [], a) := by
  simp [Asset.calculate_depreciation, hv, depreciationLoop_of_le _ _ _ h]

theorem completed_asset_no_rows_witness :
    assetDone.calculate_depreciation = (some [], assetDone) :=
  completed_asset_no_rows assetDone (by decide) (by decide)

/-- C5: with a non-empty (after stripping) item filter, every row of
`generate_depreciation_report` belongs to an asset whose `item_no`
equals the filter value after stripping and case folding — e.g. the
filter `" a004 "` matches only `"A004"`. -/
theorem item_filter_rows_match (assets : List Asset)
    (purchase_date_range : Option (Option Date × Option Date)) (f : String)
    (hf : pyStrip f ≠ "") (r : ReportRow)
    (hr : r ∈ generate_depreciation_report assets (some f) purchase_date_range) :
    pyLower (pyStrip r.item_no) = pyLower (pyStrip f) := by
  induction assets with
  | nil => simp [generate_depreciation_report] at hr
  | cons asset rest ih =>
    simp only [generate_depreciation_report] at hr
    by_cases hskip : itemFilterSkips (some f) asset = true
    · rw [if_pos hskip] at hr
      exact ih hr
    · rw [if_neg hskip] at hr
      by_cases hdate : dateFilterSkips purchase_date_range asset = true
      · rw [if_pos hdate] at hr
        exact ih hr
      · rw [if_neg hdate] at hr
        rcases List.mem_append.1 hr with hmem | hmem
        · have hfne : f ≠ "" := by
            intro h0
            exact hf (by rw [h0]; rfl)
          have hskip' : itemFilterSkips (some f) asset = false := by
            simpa using hskip
          simp only [itemFilterSkips, if_neg hfne, if_neg hf,
            decide_eq_false_iff_not, not_not] at hskip'
          have hitem : r.item_no = asset.item_no := by
            by_cases hv : (asset.validate).1 = true
            · simp only [Asset.calculate_depreciation, if_pos hv,
                Option.getD_some] at hmem
              exact depreciationLoop_item_no _ _ asset r hmem
            · have hv' : (asset.validate).1 = false := by simpa using hv
              simp [Asset.calculate_depreciation, hv'] at hmem
          rw [hitem, hskip']
        · exact ih hmem

theorem item_filter_rows_match_witness :
    pyLower (pyStrip rowA004.item_no) = pyLower (pyStrip " a004 ") := by
  refine item_filter_rows_match [assetA004] none " a004 " (by decide) rowA004 ?_
  have hskip : itemFilterSkips (some " a004 ") assetA004 = false := by decide
  have hrows : (assetA004.calculate_depreciation).1.getD [] = [rowA004] := by
    norm_num [Asset.calculate_depreciation, Asset.validate, assetA004, rowA004,
      Asset.create, Asset.scheduleYears, Asset.startYear,
      Asset.straight_line_depreciation, depreciationLoop, round2, pyRound,
      List.range_succ]
    all_goals decide
  simp [generate_depreciation_report, hskip, hrows, dateFilterSkips]

/-- C6: with a date range supplied, `generate_depreciation_report`
skips an asset (with a present purchase date) precisely when the
purchase date lies before the given start bound or after the given end
bound, either bound being independently optional; with both bounds
absent — or no range at all — the date filter skips nothing. -/
theorem date_filter_skips_iff (a : Asset) (p : Date) (s e : Option Date)
    (hp : a.purchase_date = some p) :
    (dateFilterSkips (some (s, e)) a = true ↔
      (∃ sd, s = some sd ∧ Date.ltb p sd = true) ∨
      (∃ ed, e = some ed ∧ Date.ltb ed p = true)) ∧
    dateFilterSkips (some (none, none)) a = false ∧
    dateFilterSkips none a = false ∧
    (∀ (assets : List Asset) (item : Option String),
      dateFilterSkips (some (s, e)) a = true →
      generate_depreciation_report (a :: assets) item (some (s, e)) =
        generate_depreciation_report assets item (some (s, e))) := by
  refine ⟨?_, ?_, rfl, ?_⟩
  · cases s with
    | none =>
      cases e with
      | none => simp [dateFilterSkips, hp]
      | some ed => simp [dateFilterSkips, hp]
    | some sd =>
      cases e with
      | none => simp [dateFilterSkips, hp]
      | some ed => simp [dateFilterSkips, hp]
  · simp [dateFilterSkips, hp]
  · intro assets item hskip
    simp only [generate_depreciation_report]
    by_cases hitem : itemFilterSkips item a = true
    · rw [if_pos hitem]
    · rw [if_neg hitem, if_pos hskip]

theorem date_filter_skips_iff_witness :
    dateFilterSkips (some (some ⟨2022, 1, 1⟩, none)) assetA004 = true ∧
    dateFilterSkips (some (none, none)) assetA004 = false ∧
    dateFilterSkips none assetA004 = false := by
  have h := date_filter_skips_iff assetA004 ⟨2020, 1, 1⟩ (some ⟨2022, 1, 1⟩)
    none (by decide)
  exact ⟨h.1.mpr (Or.inl ⟨⟨2022, 1, 1⟩, rfl, by decide⟩), h.2.1, h.2.2.1⟩

/-! ### Concrete evaluations of the embedding, including the spec's
worked scenario (`cost=10000, carcass_value=1000, life_years=5`,
purchased 2020-01-01: remaining amounts 8200, 6400, 4600, 2800, 1000). -/

example :
    (Asset.create "A004" "FA" (some ⟨2020, 1, 1⟩) 10 0 1 none none).scheduleYears =
    [2020] := by decide

example :
    (Asset.create "A004" "FA" (some ⟨2020, 1, 1⟩) 10 0 1 none none).reportRows =
    [{ item_no := "A004", purchase_date := some ⟨2020, 1, 1⟩, cost := 10,
       carcass_value := 0, life_years := 1, year := 2020, depreciation := 10,
       remaining_amount := 0, last_depr_date := ⟨2020, 12, 31⟩ }] := by
  norm_num [Asset.reportRows, Asset.calculate_depreciation, Asset.validate,
    Asset.create, Asset.scheduleYears, Asset.startYear,
    Asset.straight_line_depreciation, depreciationLoop, round2, pyRound,
    List.range_succ]
  all_goals decide

example :
    ((Asset.create "A001" "FA" (some ⟨2020, 1, 1⟩) 10000 1000 5 none none).reportRows).map
      (fun r => r.remaining_amount) = [8200, 6400, 4600, 2800, 1000] := by
  norm_num [Asset.reportRows, Asset.calculate_depreciation, Asset.validate,
    Asset.create, Asset.scheduleYears, Asset.startYear,
    Asset.straight_line_depreciation, depreciationLoop, round2, pyRound,
    List.range_succ]
  all_goals decide

example :
    (Asset.create "A002" "EQ" (some ⟨2021, 5, 1⟩) 5000 500 3 none none).calculate_depreciation =
    (none, Asset.create "A002" "EQ" (some ⟨2021, 5, 1⟩) 5000 500 3 none none) := by
  norm_num [Asset.calculate_depreciation, Asset.validate, Asset.create]
  all_goals decide

example :
    itemFilterSkips (some " a004 ")
      (Asset.create "A004" "FA" (some ⟨2020, 1, 1⟩) 10 0 1 none none) = false := by
  decide
